import Mathlib

/-!
Shallow embedding of `protocol/validation/block.go` (package `validation`)
of the bytom repository, together with theorems about its block-validation
pipeline (`checkBlockTime`, `checkCoinbaseAmount`, `ValidateBlockHeader`,
`ValidateBlock`).

External collaborators of that file (the consensus constants, `BlockSubsidy`,
`ValidateTx`, `chainkd.XPub.Verify`, the merkle-root functions, the
`TransactionStatus` container and the `errors` helpers) live outside the
embedded source; they are modelled either as abstract functions gathered in
`Env`, or, where the behaviour matters and the spec pins it down, as
definitions whose doc comment starts `Modelled from the spec:`.
-/

namespace BytomValidation

/-- U64 is 2^64: machine integers of the source are `uint64`; arithmetic that
can overflow is taken modulo `U64`. -/
def U64 : Nat := 2 ^ 64

/-- Error values reachable from `block.go`: the named sentinel errors declared
at its top, the inline errors it creates, the errors of the `encoding/hex`
decoder, the wrappers added by the `errors` package, and abstract error codes
returned by external collaborators. -/
inductive Err where
  | badTimestamp
  | badBits
  | mismatchedBlock
  | mismatchedMerkleRoot
  | misorderedBlockHeight
  | overBlockLimit
  | workProof
  | versionRegression
  | wrongCoinbaseTransaction
  | signatureFailed
  | setStatusOrder
  | hexInvalidByte (c : Char)
  | hexLength
  | external (code : Nat)
  | wrap (inner : Err) (msg : String)
  | withDetail (inner : Err) (detail : String)
deriving DecidableEq

/-- Root of a wrapped error: both `errors.Wrap` and `errors.WithDetailf` keep
the root error value, which is what error-kind comparisons look at. -/
def Err.root : Err → Err
  | .wrap e _ => e.root
  | .withDetail e _ => e.root
  | e => e

/-- Modelled from the spec: `errors.Wrapf` of the repository's `errors`
package (not under `src/`) annotates a present failure with a message, and an
absent failure stays absent. -/
def wrapf (e : Option Err) (msg : String) : Option Err :=
  e.map fun e => Err.wrap e msg

/-- The gas outcome of the external per-transaction validator (`GasState` in
the source). Per the spec, gas-used and fee-contribution are non-negative
integers. -/
structure GasStatus where
  gasValid : Bool
  gasUsed : Nat
  btmValue : Nat

/-- A transaction, as consumed by `block.go`: an abstract identity (the
source hands the whole transaction to external functions), and the result of
the designated result-output lookup used by `checkCoinbaseAmount`
(`tx.Output(*tx.TxHeader.ResultIds[0]).Source.Value.Amount`, an external
lookup that can fail with an abstract error code). -/
structure Tx where
  id : Nat
  coinbaseOutputAmount : Except Nat Nat

/-- The proof carried by the block header: control program and signature. -/
structure Proof where
  controlProgram : String
  sign : List Nat

/-- bc.Block: the header fields read by validation, the transaction list, and
the attached TransactionStatus (the list of per-transaction failure flags,
`VerifyStatus` in the source). -/
structure Block where
  version : Nat
  height : Nat
  timestamp : Nat
  bits : Nat
  previousBlockId : Nat
  transactionsRoot : Nat
  transactionStatusHash : Nat
  proof : Proof
  transactions : List Tx
  transactionStatus : List Bool

/-- state.BlockNode: the accepted parent, with the chain-history-derived
values consumed as precomputed fields. -/
structure BlockNode where
  version : Nat
  height : Nat
  hash : Nat
  calcNextBits : Nat
  calcPastMedianTime : Nat

/-- types.Block: only its canonical text encoding is consumed
(`block.MarshalText()`, whose error the source ignores). -/
structure TypesBlock where
  marshalText : List Nat

/-- The external collaborators of `block.go`, as abstract functions: the
clock, the consensus subsidy schedule, the per-transaction validator (its
second, containing-block argument is the block under validation, fixed for
the whole call), the signature primitive, and the two merkle-root functions
(whose failures are abstract error codes). -/
structure Env where
  nowUnix : Nat
  subsidy : Nat → Nat
  validateTx : Tx → GasStatus × Option Nat
  verify : List Nat → List Nat → List Nat → Bool
  txMerkleRoot : List Tx → Except Nat Nat
  txStatusMerkleRoot : List Bool → Except Nat Nat

/-- Modelled from the spec: `consensus.MaxTimeOffsetSeconds`, the bounded
clock-skew tolerance in seconds (the consensus package is not under
`src/`). -/
def maxTimeOffsetSeconds : Nat := 3600

/-- Modelled from the spec: `consensus.MaxBlockGas`, the fixed per-block gas
ceiling (the consensus package is not under `src/`). -/
def maxBlockGas : Nat := 10000000

/-- Go map indexing `m[k]` for a `map[string]string`: yields the zero value
`""` when the key is absent. -/
def mapIndex (m : List (String × String)) (k : String) : String :=
  match m.find? fun p => p.1 == k with
  | some p => p.2
  | none => ""

/-- encoding/hex: the value of one hex digit. -/
def fromHexChar (c : Char) : Option Nat :=
  if '0' ≤ c ∧ c ≤ '9' then some (c.toNat - '0'.toNat)
  else if 'a' ≤ c ∧ c ≤ 'f' then some (c.toNat - 'a'.toNat + 10)
  else if 'A' ≤ c ∧ c ≤ 'F' then some (c.toNat - 'A'.toNat + 10)
  else none

/-- encoding/hex `DecodeString`, on the string's character list: decodes
digit pairs in order; a non-digit fails with `hexInvalidByte`, an odd length
whose digits are all valid fails with `hexLength`; the empty string decodes
to `[]` without error. -/
def hexDecodeList : List Char → Except Err (List Nat)
  | [] => .ok []
  | [c] =>
    match fromHexChar c with
    | none => .error (.hexInvalidByte c)
    | some _ => .error .hexLength
  | c1 :: c2 :: rest =>
    match fromHexChar c1 with
    | none => .error (.hexInvalidByte c1)
    | some a =>
      match fromHexChar c2 with
      | none => .error (.hexInvalidByte c2)
      | some b => (hexDecodeList rest).map fun bs => (a * 16 + b) :: bs

/-- encoding/hex `DecodeString` on a string. -/
def hexDecodeString (s : String) : Except Err (List Nat) :=
  hexDecodeList s.data

/-- chainkd.XPub is a zero-initialised 64-byte array; `copy(xpub[:], tmp[:])`
fills its first `min |tmp| 64` bytes with the decoded key material. -/
def makeXPub (tmp : List Nat) : List Nat :=
  tmp.take 64 ++ List.replicate (64 - min tmp.length 64) 0

/-- Modelled from the spec: `bc.NewTransactionStatus` (not under `src/`)
creates the fresh, empty status bitmap. -/
def newTransactionStatus : List Bool := []

/-- Modelled from the spec: `TransactionStatus.SetStatus` (not under `src/`)
records the failure flag at index `i`, one by one: it extends the bitmap at
`i = length`, overwrites below it, and fails beyond it. -/
def setStatus (vs : List Bool) (i : Nat) (fail : Bool) : Except Err (List Bool) :=
  if vs.length < i then .error .setStatusOrder
  else if i = vs.length then .ok (vs ++ [fail])
  else .ok (vs.set i fail)

/-- checkBlockTime of `block.go`: the clock-drift bound, then the
past-median-time bound; both failures are `errBadTimestamp`. -/
def checkBlockTime (env : Env) (b : Block) (parent : BlockNode) : Option Err :=
  if b.timestamp > (env.nowUnix + maxTimeOffsetSeconds) % U64 then some .badTimestamp
  else if b.timestamp ≤ parent.calcPastMedianTime then some .badTimestamp
  else none

/-- checkCoinbaseAmount of `block.go`: an empty block and an output-amount
mismatch wrap `ErrWrongCoinbaseTransaction`; a failing output lookup
propagates the lookup's own (abstract) error unwrapped. -/
def checkCoinbaseAmount (b : Block) (amount : Nat) : Option Err :=
  match b.transactions with
  | [] => some (.wrap .wrongCoinbaseTransaction "block is empty")
  | tx :: _ =>
    match tx.coinbaseOutputAmount with
    | .error code => some (.external code)
    | .ok outAmount =>
      if outAmount ≠ amount then some (.wrap .wrongCoinbaseTransaction "dismatch output amount")
      else none

/-- ValidateBlockHeader of `block.go`: version monotonicity, height linkage,
difficulty bits, previous-block hash, then the timestamp bounds, in the
source's order, each with its own error value. -/
def validateBlockHeader (env : Env) (b : Block) (parent : BlockNode) : Option Err :=
  if b.version < parent.version then
    some (.withDetail .versionRegression "previous block verson, current block version")
  else if b.height ≠ (parent.height + 1) % U64 then
    some (.withDetail .misorderedBlockHeight "previous block height, current block height")
  else if b.bits ≠ parent.calcNextBits then
    some .badBits
  else if parent.hash ≠ b.previousBlockId then
    some (.withDetail .mismatchedBlock "previous block ID, current block wants")
  else checkBlockTime env b parent

/-- Outcome of the transaction loop of `ValidateBlock`: either the loop ran
over the whole list (carrying the accumulated coinbase amount), or a `return`
statement fired inside the loop, carrying the — possibly absent — returned
error. Either way the status bitmap built so far is carried out, since the
source has already attached it to the block. -/
inductive LoopExit where
  | completed (coinbaseAmount : Nat) (status : List Bool)
  | returned (err : Option Err) (status : List Bool)

/-- The transaction loop of `ValidateBlock` (lines 94 to 111): per
transaction, consult the external validator; an invalid outcome returns the
wrapped upstream detail annotated with the index and the count; record the
failure flag; add the fee contribution to the coinbase amount and the gas to
the block gas sum (uint64 arithmetic), returning `errOverBlockLimit` as soon
as the sum exceeds the ceiling. -/
def txLoopGo (env : Env) (total : Nat) :
    Nat → Nat → Nat → List Bool → List Tx → LoopExit
  | _, _, coinbaseAmount, status, [] => .completed coinbaseAmount status
  | i, gasSum, coinbaseAmount, status, tx :: rest =>
    if (env.validateTx tx).1.gasValid = false then
      .returned (wrapf ((env.validateTx tx).2.map Err.external)
        ("validate of transaction " ++ toString i ++ " of " ++ toString total)) status
    else
      match setStatus status i (env.validateTx tx).2.isSome with
      | .error e => .returned (some e) status
      | .ok status1 =>
        if (gasSum + (env.validateTx tx).1.gasUsed) % U64 > maxBlockGas then
          .returned (some .overBlockLimit) status1
        else
          txLoopGo env total (i + 1) ((gasSum + (env.validateTx tx).1.gasUsed) % U64)
            ((coinbaseAmount + (env.validateTx tx).1.btmValue) % U64) status1 rest

/-- The merkle-commitment stage of `ValidateBlock` (lines 117 to 132): the
transaction-id root, then the transaction-status root, each either failing to
compute (wrapped abstract error) or compared against the header commitment
(`errMismatchedMerkleRoot`, detailed with which root failed). -/
def merkleChecks (env : Env) (b : Block) (st : List Bool) : Option Err :=
  match env.txMerkleRoot b.transactions with
  | .error code => some (.wrap (.external code) "computing transaction id merkle root")
  | .ok txRoot =>
    if txRoot ≠ b.transactionsRoot then
      some (.withDetail .mismatchedMerkleRoot "transaction id merkle root")
    else
      match env.txStatusMerkleRoot st with
      | .error code => some (.wrap (.external code) "computing transaction status merkle root")
      | .ok statusRoot =>
        if statusRoot ≠ b.transactionStatusHash then
          some (.withDetail .mismatchedMerkleRoot "transaction status merkle root")
        else none

/-- ValidateBlock of `block.go`, split off as a function of the incoming
block: the first component is the returned error, the second reports whether
(and with what) the block's TransactionStatus was overwritten (`none` means a
stage before the loop failed, leaving the block untouched). -/
def validateBlockAux (env : Env) (b : Block) (parent : BlockNode)
    (block : TypesBlock) (authoritys : List (String × String)) :
    Option Err × Option (List Bool) :=
  match validateBlockHeader env b parent with
  | some e => (some e, none)
  | none =>
    match hexDecodeString (mapIndex authoritys b.proof.controlProgram) with
    | .error e => (some e, none)
    | .ok tmp =>
      if env.verify (makeXPub tmp) block.marshalText b.proof.sign then
        match txLoopGo env b.transactions.length 0 0 (env.subsidy b.height)
            newTransactionStatus b.transactions with
        | .returned e st => (e, some st)
        | .completed coinbaseAmount st =>
          match checkCoinbaseAmount b coinbaseAmount with
          | some e => (some e, some st)
          | none => (merkleChecks env b st, some st)
      else (some .signatureFailed, none)

/-- ValidateBlock of `block.go`. The source mutates `b.TransactionStatus` in
place; here the block as left by the call is returned alongside the error.
The final `position` parameter is never read by the source. -/
def validateBlock (env : Env) (b : Block) (parent : BlockNode)
    (block : TypesBlock) (authoritys : List (String × String))
    (position : Nat) : Option Err × Block :=
  match validateBlockAux env b parent block authoritys with
  | (e, none) => (e, b)
  | (e, some st) => (e, { b with transactionStatus := st })

/-- The failure flag the loop records for a transaction: whether the external
validator reported an error alongside its outcome. -/
def txFlag (env : Env) (tx : Tx) : Bool := (env.validateTx tx).2.isSome

/-- Whether the external validator reports the transaction's gas outcome as
valid. -/
def txValid (env : Env) (tx : Tx) : Bool := (env.validateTx tx).1.gasValid

/-- The gas the external validator reports for a transaction. -/
def gasOf (env : Env) (tx : Tx) : Nat := (env.validateTx tx).1.gasUsed

/-- The fee contribution the external validator reports for a transaction. -/
def feeOf (env : Env) (tx : Tx) : Nat := (env.validateTx tx).1.btmValue

/-- One step of the block-gas accumulator (uint64 addition). -/
def gasStep (env : Env) (s : Nat) (tx : Tx) : Nat := (s + gasOf env tx) % U64

/-- The block-gas accumulator over a list of transactions. -/
def gasAccum (env : Env) (s : Nat) : List Tx → Nat
  | [] => s
  | tx :: rest => gasAccum env (gasStep env s tx) rest

/-- The coinbase accumulator: seed (the height-derived subsidy) plus the fee
contributions, in uint64 arithmetic. -/
def coinbaseAccum (env : Env) (s : Nat) : List Tx → Nat
  | [] => s
  | tx :: rest => coinbaseAccum env ((s + feeOf env tx) % U64) rest

/-- The running block-gas total stays within the ceiling at every step along
the given list. -/
def noCross (env : Env) (s : Nat) : List Tx → Prop
  | [] => True
  | tx :: rest => gasStep env s tx ≤ maxBlockGas ∧ noCross env (gasStep env s tx) rest

/-- Witness fixture: a parent node of version 1, height 100, hash 7, next
required bits 3 and past median time 50. -/
def wParent : BlockNode := ⟨1, 100, 7, 3, 50⟩

/-- Witness fixture: a coinbase transaction (abstract identity 1) whose
designated result output carries amount 50. -/
def wTx : Tx := ⟨1, .ok 50⟩

/-- Witness fixture: a transaction (abstract identity 2), used where the
external validator is set up to reject identity 2. -/
def wTxBad : Tx := ⟨2, .ok 0⟩

/-- Witness fixture: a header extending `wParent` correctly (version 1,
height 101, timestamp 1000, bits 3, previous id 7), commitments 11 and 22,
control program "alice", one coinbase transaction. -/
def wBlock : Block := ⟨1, 101, 1000, 3, 7, 11, 22, ⟨"alice", [1]⟩, [wTx], []⟩

/-- Witness fixture: like `wBlock` but with no transactions at all. -/
def wBlockEmpty : Block := ⟨1, 101, 1000, 3, 7, 11, 22, ⟨"alice", [1]⟩, [], []⟩

/-- Witness fixture: like `wBlock` but with a second, rejected transaction
and a stale, non-empty incoming TransactionStatus. -/
def wBlockTwo : Block :=
  ⟨1, 101, 1000, 3, 7, 11, 22, ⟨"alice", [1]⟩, [wTx, wTxBad], [true, true, true]⟩

/-- Witness fixture: a block violating the height linkage (height 200). -/
def wBlockBadHeight : Block :=
  ⟨1, 200, 1000, 3, 7, 11, 22, ⟨"alice", [1]⟩, [wTx], []⟩

/-- Witness fixture: a block with a version regression (version 0 under a
version-1 parent). -/
def wBlockBadVersion : Block :=
  ⟨0, 101, 1000, 3, 7, 11, 22, ⟨"alice", [1]⟩, [wTx], []⟩

/-- Witness fixture: a block with wrong difficulty bits (4 instead of 3). -/
def wBlockBadBits : Block :=
  ⟨1, 101, 1000, 4, 7, 11, 22, ⟨"alice", [1]⟩, [wTx], []⟩

/-- Witness fixture: a block whose previous-block id (8) is not the parent's
hash (7). -/
def wBlockBadPrev : Block :=
  ⟨1, 101, 1000, 3, 8, 11, 22, ⟨"alice", [1]⟩, [wTx], []⟩

/-- Witness fixture: the canonical text encoding of the candidate block. -/
def wTypesBlock : TypesBlock := ⟨[5]⟩

/-- Witness fixture: the authority registry, mapping "alice" to the empty
hex string. -/
def wAuth : List (String × String) := [("alice", "")]

/-- Witness fixture: an authority registry whose entry for "alice" is not
valid hex. -/
def wAuthBad : List (String × String) := [("alice", "zz")]

/-- Witness fixture environment: every transaction validates with zero gas
and fee and no execution error, every signature verifies, the clock reads
1000, the subsidy is 50, and the merkle-root functions return 11 and 22
(matching `wBlock`'s commitments). -/
def wEnv : Env :=
  ⟨1000, fun _ => 50, fun _ => (⟨true, 0, 0⟩, none), fun _ _ _ => true,
    fun _ => .ok 11, fun _ => .ok 22⟩

/-- Witness fixture environment: like `wEnv` but every signature is
rejected. -/
def wEnvNoSig : Env :=
  ⟨1000, fun _ => 50, fun _ => (⟨true, 0, 0⟩, none), fun _ _ _ => false,
    fun _ => .ok 11, fun _ => .ok 22⟩

/-- Witness fixture environment: like `wEnv` but every transaction reports
gas one above the per-block ceiling. -/
def wEnvGas : Env :=
  ⟨1000, fun _ => 50, fun _ => (⟨true, maxBlockGas + 1, 0⟩, none), fun _ _ _ => true,
    fun _ => .ok 11, fun _ => .ok 22⟩

/-- Witness fixture environment: like `wEnv` but the validator rejects the
transaction with identity 2 (gas outcome invalid, failure detail code 9). -/
def wEnvMix : Env :=
  ⟨1000, fun _ => 50,
    fun tx => if tx.id = 2 then (⟨false, 0, 0⟩, some 9) else (⟨true, 0, 0⟩, none),
    fun _ _ _ => true, fun _ => .ok 11, fun _ => .ok 22⟩

/-- Witness fixture environment: like `wEnv` but the validator reports every
transaction's gas outcome invalid with an absent failure detail, and the
merkle-root functions return 99 (matching neither commitment of `wBlock`). -/
def wEnvBug : Env :=
  ⟨1000, fun _ => 50, fun _ => (⟨false, 0, 0⟩, none), fun _ _ _ => true,
    fun _ => .ok 99, fun _ => .ok 99⟩

theorem validateBlockAux_status_irrel (env : Env) (v h ts bits prev troot tsh : Nat)
    (proof : Proof) (txs : List Tx) (s s' : List Bool) (parent : BlockNode)
    (block : TypesBlock) (auth : List (String × String)) :
    validateBlockAux env ⟨v, h, ts, bits, prev, troot, tsh, proof, txs, s⟩ parent block auth =
      validateBlockAux env ⟨v, h, ts, bits, prev, troot, tsh, proof, txs, s'⟩ parent block auth := rfl

theorem setStatus_self (vs : List Bool) (f : Bool) :
    setStatus vs vs.length f = .ok (vs ++ [f]) := by
  simp [setStatus]

theorem setStatus_error (vs : List Bool) (i : Nat) (f : Bool) (e : Err)
    (h : setStatus vs i f = .error e) : e = .setStatusOrder := by
  unfold setStatus at h
  split at h
  · exact (Except.error.injEq _ _ ▸ h).symm
  · split at h <;> simp at h

theorem hexDecodeList_error : ∀ (l : List Char) (e : Err), hexDecodeList l = .error e →
    e = .hexLength ∨ ∃ c, e = .hexInvalidByte c
  | [], e, h => by simp [hexDecodeList] at h
  | [c], e, h => by
    unfold hexDecodeList at h
    cases hc : fromHexChar c <;> rw [hc] at h <;> simp at h
    · exact Or.inr ⟨c, h.symm⟩
    · exact Or.inl h.symm
  | c1 :: c2 :: rest, e, h => by
    unfold hexDecodeList at h
    cases hc1 : fromHexChar c1 <;> rw [hc1] at h
    · simp at h; exact Or.inr ⟨c1, h.symm⟩
    · cases hc2 : fromHexChar c2 <;> rw [hc2] at h
      · simp at h; exact Or.inr ⟨c2, h.symm⟩
      · cases hr : hexDecodeList rest <;> rw [hr] at h <;> simp [Except.map] at h
        · exact h ▸ hexDecodeList_error rest e (h ▸ hr)

theorem txLoopGo_completed (env : Env) (total : Nat) (txs : List Tx) :
    ∀ (gasSum coinbaseAmount : Nat) (status : List Bool),
      (∀ tx ∈ txs, txValid env tx = true) →
      noCross env gasSum txs →
      txLoopGo env total status.length gasSum coinbaseAmount status txs =
        .completed (coinbaseAccum env coinbaseAmount txs) (status ++ txs.map (txFlag env)) := by
  induction txs with
  | nil => intro g c s _ _; simp [txLoopGo, coinbaseAccum]
  | cons tx rest ih =>
    intro g c s hval hnc
    have hv : (env.validateTx tx).1.gasValid = true := hval tx (by simp)
    obtain ⟨h1, h2⟩ := hnc
    rw [txLoopGo, if_neg (by simp [hv]), setStatus_self]
    simp only []
    have hgas : ¬ (g + (env.validateTx tx).1.gasUsed) % U64 > maxBlockGas := by
      simp only [gasStep, gasOf] at h1; omega
    rw [if_neg hgas]
    have hlen : s.length + 1 = (s ++ [(env.validateTx tx).2.isSome]).length := by simp
    have h2' : noCross env ((g + (env.validateTx tx).1.gasUsed) % U64) rest := by
      simpa [gasStep, gasOf] using h2
    rw [hlen, ih ((g + (env.validateTx tx).1.gasUsed) % U64)
      ((c + (env.validateTx tx).1.btmValue) % U64) (s ++ [(env.validateTx tx).2.isSome])
      (fun t ht => hval t (by simp [ht])) h2']
    simp [coinbaseAccum, txFlag, feeOf, gasStep, gasOf]

theorem txLoopGo_invalid (env : Env) (total : Nat) (pre : List Tx) :
    ∀ (t : Tx) (post : List Tx) (gasSum coinbaseAmount : Nat) (status : List Bool),
      (∀ tx ∈ pre, txValid env tx = true) →
      noCross env gasSum pre →
      txValid env t = false →
      txLoopGo env total status.length gasSum coinbaseAmount status (pre ++ t :: post) =
        .returned (wrapf ((env.validateTx t).2.map Err.external)
            ("validate of transaction " ++ toString (status.length + pre.length) ++
              " of " ++ toString total))
          (status ++ pre.map (txFlag env)) := by
  induction pre with
  | nil =>
    intro t post g c s _ _ ht
    simp only [txValid] at ht
    rw [List.nil_append, txLoopGo, if_pos (by simp [ht])]
    simp
  | cons tx rest ih =>
    intro t post g c s hval hnc ht
    have hv : (env.validateTx tx).1.gasValid = true := hval tx (by simp)
    obtain ⟨h1, h2⟩ := hnc
    rw [List.cons_append, txLoopGo, if_neg (by simp [hv]), setStatus_self]
    simp only []
    have hgas : ¬ (g + (env.validateTx tx).1.gasUsed) % U64 > maxBlockGas := by
      simp only [gasStep, gasOf] at h1; omega
    rw [if_neg hgas]
    have hlen : s.length + 1 = (s ++ [(env.validateTx tx).2.isSome]).length := by simp
    have h2' : noCross env ((g + (env.validateTx tx).1.gasUsed) % U64) rest := by
      simpa [gasStep, gasOf] using h2
    rw [hlen, ih t post ((g + (env.validateTx tx).1.gasUsed) % U64)
      ((c + (env.validateTx tx).1.btmValue) % U64) (s ++ [(env.validateTx tx).2.isSome])
      (fun u hu => hval u (by simp [hu])) h2' ht]
    have hidx : (s ++ [(env.validateTx tx).2.isSome]).length + rest.length =
        s.length + (tx :: rest).length := by simp; omega
    rw [hidx]
    simp [txFlag]

theorem txLoopGo_overLimit (env : Env) (total : Nat) (pre : List Tx) :
    ∀ (t : Tx) (post : List Tx) (gasSum coinbaseAmount : Nat) (status : List Bool),
      (∀ tx ∈ pre, txValid env tx = true) →
      noCross env gasSum pre →
      txValid env t = true →
      gasStep env (gasAccum env gasSum pre) t > maxBlockGas →
      txLoopGo env total status.length gasSum coinbaseAmount status (pre ++ t :: post) =
        .returned (some .overBlockLimit) (status ++ (pre ++ [t]).map (txFlag env)) := by
  induction pre with
  | nil =>
    intro t post g c s _ _ ht hcross
    simp only [txValid] at ht
    simp only [gasAccum] at hcross
    rw [List.nil_append, txLoopGo, if_neg (by simp [ht]), setStatus_self]
    simp only []
    simp only [gasStep, gasOf] at hcross
    rw [if_pos hcross]
    simp [txFlag]
  | cons tx rest ih =>
    intro t post g c s hval hnc ht hcross
    have hv : (env.validateTx tx).1.gasValid = true := hval tx (by simp)
    obtain ⟨h1, h2⟩ := hnc
    rw [List.cons_append, txLoopGo, if_neg (by simp [hv]), setStatus_self]
    simp only []
    have hgas : ¬ (g + (env.validateTx tx).1.gasUsed) % U64 > maxBlockGas := by
      simp only [gasStep, gasOf] at h1; omega
    rw [if_neg hgas]
    have hlen : s.length + 1 = (s ++ [(env.validateTx tx).2.isSome]).length := by simp
    have hacc : gasAccum env g (tx :: rest) = gasAccum env ((g + (env.validateTx tx).1.gasUsed) % U64) rest := by
      simp [gasAccum, gasStep, gasOf]
    rw [hacc] at hcross
    have h2' : noCross env ((g + (env.validateTx tx).1.gasUsed) % U64) rest := by
      simpa [gasStep, gasOf] using h2
    rw [hlen, ih t post ((g + (env.validateTx tx).1.gasUsed) % U64)
      ((c + (env.validateTx tx).1.btmValue) % U64) (s ++ [(env.validateTx tx).2.isSome])
      (fun u hu => hval u (by simp [hu])) h2' ht hcross]
    simp [txFlag]

theorem txLoopGo_returned_some_root (env : Env) (total : Nat) : ∀ (txs : List Tx)
    (i gasSum coinbaseAmount : Nat) (status : List Bool) (e : Err) (status' : List Bool),
    txLoopGo env total i gasSum coinbaseAmount status txs = .returned (some e) status' →
    e.root ≠ .wrongCoinbaseTransaction
  | [], i, g, c, s, e, s', h => by simp [txLoopGo] at h
  | tx :: rest, i, g, c, s, e, s', h => by
    rw [txLoopGo] at h
    by_cases hv : (env.validateTx tx).1.gasValid = false
    · rw [if_pos hv] at h
      cases herr : (env.validateTx tx).2 with
      | none => rw [herr] at h; simp [wrapf] at h
      | some code =>
        rw [herr] at h
        simp [wrapf] at h
        obtain ⟨he, _⟩ := h
        rw [← he]
        simp [Err.root]
    · rw [if_neg hv] at h
      cases hss : setStatus s i (env.validateTx tx).2.isSome with
      | error e0 =>
        rw [hss] at h
        simp at h
        obtain ⟨he, _⟩ := h
        rw [← he, setStatus_error s i _ e0 hss]
        simp [Err.root]
      | ok s1 =>
        rw [hss] at h
        simp only [] at h
        by_cases hgas : (g + (env.validateTx tx).1.gasUsed) % U64 > maxBlockGas
        · rw [if_pos hgas] at h
          simp at h
          obtain ⟨he, _⟩ := h
          rw [← he]
          simp [Err.root]
        · rw [if_neg hgas] at h
          exact txLoopGo_returned_some_root env total rest _ _ _ _ _ _ h

theorem txLoopGo_completed_coinbase (env : Env) (total : Nat) : ∀ (txs : List Tx)
    (i gasSum coinbaseAmount : Nat) (status : List Bool) (c' : Nat) (status' : List Bool),
    txLoopGo env total i gasSum coinbaseAmount status txs = .completed c' status' →
    c' = coinbaseAccum env coinbaseAmount txs
  | [], i, g, c, s, c', s', h => by
    simp [txLoopGo] at h
    simp [coinbaseAccum, h.1.symm]
  | tx :: rest, i, g, c, s, c', s', h => by
    rw [txLoopGo] at h
    by_cases hv : (env.validateTx tx).1.gasValid = false
    · rw [if_pos hv] at h; simp at h
    · rw [if_neg hv] at h
      cases hss : setStatus s i (env.validateTx tx).2.isSome with
      | error e0 => rw [hss] at h; simp at h
      | ok s1 =>
        rw [hss] at h
        simp only [] at h
        by_cases hgas : (g + (env.validateTx tx).1.gasUsed) % U64 > maxBlockGas
        · rw [if_pos hgas] at h; simp at h
        · rw [if_neg hgas] at h
          have := txLoopGo_completed_coinbase env total rest _ _ _ _ _ _ h
          simp [coinbaseAccum, feeOf, this]

/-- C5: ValidateBlockHeader checks, in this fixed order, version
monotonicity, height linkage, difficulty bits and previous-block hash, each
failure returning its own error kind (version regression, misordered height,
bad bits, mismatched block); when several conditions are violated, the error
of the earliest check in this order is returned. -/
theorem c5_header_check_order (env : Env) (b : Block) (parent : BlockNode) :
    (b.version < parent.version →
      validateBlockHeader env b parent =
        some (.withDetail .versionRegression "previous block verson, current block version")) ∧
    (¬ b.version < parent.version → b.height ≠ (parent.height + 1) % U64 →
      validateBlockHeader env b parent =
        some (.withDetail .misorderedBlockHeight "previous block height, current block height")) ∧
    (¬ b.version < parent.version → b.height = (parent.height + 1) % U64 →
      b.bits ≠ parent.calcNextBits →
      validateBlockHeader env b parent = some .badBits) ∧
    (¬ b.version < parent.version → b.height = (parent.height + 1) % U64 →
      b.bits = parent.calcNextBits → parent.hash ≠ b.previousBlockId →
      validateBlockHeader env b parent =
        some (.withDetail .mismatchedBlock "previous block ID, current block wants")) := by
  refine ⟨?_, ?_, ?_, ?_⟩ <;> intros <;> simp_all [validateBlockHeader]

/-- Witness for C5: the four header violations, each at a concrete block
under the concrete parent `wParent`, produce the four distinct error
kinds. -/
theorem c5_header_check_order_witness :
    validateBlockHeader wEnv wBlockBadVersion wParent =
      some (.withDetail .versionRegression "previous block verson, current block version") ∧
    validateBlockHeader wEnv wBlockBadHeight wParent =
      some (.withDetail .misorderedBlockHeight "previous block height, current block height") ∧
    validateBlockHeader wEnv wBlockBadBits wParent = some .badBits ∧
    validateBlockHeader wEnv wBlockBadPrev wParent =
      some (.withDetail .mismatchedBlock "previous block ID, current block wants") :=
  ⟨(c5_header_check_order wEnv wBlockBadVersion wParent).1 (by decide),
    (c5_header_check_order wEnv wBlockBadHeight wParent).2.1 (by decide) (by decide),
    (c5_header_check_order wEnv wBlockBadBits wParent).2.2.1 (by decide) (by decide) (by decide),
    (c5_header_check_order wEnv wBlockBadPrev wParent).2.2.2 (by decide) (by decide) (by decide)
      (by decide)⟩

/-- C6: the block timestamp is accepted exactly when it is at most the clock
value plus the skew tolerance and strictly beyond the parent's past median
time; violating either bound yields the same single bad-timestamp error, the
two causes not being distinguished; and once the four linkage checks pass,
ValidateBlockHeader decides exactly by this timestamp rule. -/
theorem c6_timestamp_bounds (env : Env) (b : Block) (parent : BlockNode)
    (hnow : env.nowUnix + maxTimeOffsetSeconds < U64) :
    (checkBlockTime env b parent = none ↔
      (b.timestamp ≤ env.nowUnix + maxTimeOffsetSeconds ∧
        parent.calcPastMedianTime < b.timestamp)) ∧
    (∀ e, checkBlockTime env b parent = some e → e = .badTimestamp) ∧
    (¬ b.version < parent.version → b.height = (parent.height + 1) % U64 →
      b.bits = parent.calcNextBits → parent.hash = b.previousBlockId →
      validateBlockHeader env b parent = checkBlockTime env b parent) := by
  have hmod : (env.nowUnix + maxTimeOffsetSeconds) % U64 = env.nowUnix + maxTimeOffsetSeconds :=
    Nat.mod_eq_of_lt hnow
  refine ⟨?_, ?_, ?_⟩
  · unfold checkBlockTime
    rw [hmod]
    split
    · next h1 => simp; omega
    · split
      · next h2 => simp; omega
      · next h1 h2 => simp; omega
  · intro e
    unfold checkBlockTime
    split
    · intro he; exact (Option.some.injEq _ _ ▸ he).symm
    · split
      · intro he; exact (Option.some.injEq _ _ ▸ he).symm
      · intro he; exact absurd he (by simp)
  · intro h1 h2 h3 h4
    simp [validateBlockHeader, h1, h2, h3, h4]

/-- Witness for C6: under the concrete environment `wEnv` (clock 1000) the
concrete block `wBlock` (timestamp 1000) passes the timestamp rule. -/
theorem c6_timestamp_bounds_witness : checkBlockTime wEnv wBlock wParent = none :=
  (c6_timestamp_bounds wEnv wBlock wParent (by decide)).1.mpr ⟨by decide, by decide⟩

/-- C8: ValidateBlock is deterministic and idempotent: it is a pure function
of its inputs, and re-running it on the block it returned (the block carrying
the attached TransactionStatus) yields the same error result and the same
attached TransactionStatus. -/
theorem c8_deterministic_idempotent (env : Env) (b : Block) (parent : BlockNode)
    (block : TypesBlock) (auth : List (String × String)) (pos : Nat) :
    validateBlock env b parent block auth pos = validateBlock env b parent block auth pos ∧
    validateBlock env (validateBlock env b parent block auth pos).2 parent block auth pos =
      validateBlock env b parent block auth pos := by
  refine ⟨rfl, ?_⟩
  cases b with
  | mk v h ts bits prev troot tsh proof txs status =>
    rcases haux : validateBlockAux env ⟨v, h, ts, bits, prev, troot, tsh, proof, txs, status⟩
        parent block auth with ⟨e, ost⟩
    cases ost with
    | none => simp [validateBlock, haux]
    | some st =>
      have haux' : validateBlockAux env ⟨v, h, ts, bits, prev, troot, tsh, proof, txs, st⟩
          parent block auth = (e, some st) := by
        rw [validateBlockAux_status_irrel env v h ts bits prev troot tsh proof txs st status]
        exact haux
      simp [validateBlock, haux, haux']

/-- C9: ValidateBlock never reads its final position parameter: for every
pair of inputs differing only in that parameter, the result and the attached
TransactionStatus are identical. -/
theorem c9_position_unused (env : Env) (b : Block) (parent : BlockNode)
    (block : TypesBlock) (auth : List (String × String)) (pos pos' : Nat) :
    validateBlock env b parent block auth pos = validateBlock env b parent block auth pos' := rfl

theorem validateBlockAux_update_status (env : Env) (b : Block) (s : List Bool)
    (parent : BlockNode) (block : TypesBlock) (auth : List (String × String)) :
    validateBlockAux env { b with transactionStatus := s } parent block auth =
      validateBlockAux env b parent block auth := by
  cases b
  rfl

theorem Block_update_update (b : Block) (s st : List Bool) :
    ({ { b with transactionStatus := s } with transactionStatus := st } : Block) =
      { b with transactionStatus := st } := by
  cases b
  rfl

theorem validateBlock_hex_err (env : Env) (b : Block) (parent : BlockNode)
    (block : TypesBlock) (auth : List (String × String)) (pos : Nat) (e : Err)
    (hh : validateBlockHeader env b parent = none)
    (hx : hexDecodeString (mapIndex auth b.proof.controlProgram) = .error e) :
    validateBlock env b parent block auth pos = (some e, b) := by
  simp [validateBlock, validateBlockAux, hh, hx]

theorem validateBlock_sig_fail (env : Env) (b : Block) (parent : BlockNode)
    (block : TypesBlock) (auth : List (String × String)) (pos : Nat) (tmp : List Nat)
    (hh : validateBlockHeader env b parent = none)
    (hx : hexDecodeString (mapIndex auth b.proof.controlProgram) = .ok tmp)
    (hv : env.verify (makeXPub tmp) block.marshalText b.proof.sign = false) :
    validateBlock env b parent block auth pos = (some .signatureFailed, b) := by
  simp [validateBlock, validateBlockAux, hh, hx, hv]

theorem validateBlock_loop_returned (env : Env) (b : Block) (parent : BlockNode)
    (block : TypesBlock) (auth : List (String × String)) (pos : Nat) (tmp : List Nat)
    (e : Option Err) (st : List Bool)
    (hh : validateBlockHeader env b parent = none)
    (hx : hexDecodeString (mapIndex auth b.proof.controlProgram) = .ok tmp)
    (hv : env.verify (makeXPub tmp) block.marshalText b.proof.sign = true)
    (hl : txLoopGo env b.transactions.length 0 0 (env.subsidy b.height)
        newTransactionStatus b.transactions = .returned e st) :
    validateBlock env b parent block auth pos = (e, { b with transactionStatus := st }) := by
  simp [validateBlock, validateBlockAux, hh, hx, hv, hl]

theorem validateBlock_coinbase_err (env : Env) (b : Block) (parent : BlockNode)
    (block : TypesBlock) (auth : List (String × String)) (pos : Nat) (tmp : List Nat)
    (c : Nat) (st : List Bool) (e : Err)
    (hh : validateBlockHeader env b parent = none)
    (hx : hexDecodeString (mapIndex auth b.proof.controlProgram) = .ok tmp)
    (hv : env.verify (makeXPub tmp) block.marshalText b.proof.sign = true)
    (hl : txLoopGo env b.transactions.length 0 0 (env.subsidy b.height)
        newTransactionStatus b.transactions = .completed c st)
    (hc : checkCoinbaseAmount b c = some e) :
    validateBlock env b parent block auth pos = (some e, { b with transactionStatus := st }) := by
  simp [validateBlock, validateBlockAux, hh, hx, hv, hl, hc]

theorem validateBlock_merkle_stage (env : Env) (b : Block) (parent : BlockNode)
    (block : TypesBlock) (auth : List (String × String)) (pos : Nat) (tmp : List Nat)
    (c : Nat) (st : List Bool)
    (hh : validateBlockHeader env b parent = none)
    (hx : hexDecodeString (mapIndex auth b.proof.controlProgram) = .ok tmp)
    (hv : env.verify (makeXPub tmp) block.marshalText b.proof.sign = true)
    (hl : txLoopGo env b.transactions.length 0 0 (env.subsidy b.height)
        newTransactionStatus b.transactions = .completed c st)
    (hc : checkCoinbaseAmount b c = none) :
    validateBlock env b parent block auth pos =
      (merkleChecks env b st, { b with transactionStatus := st }) := by
  simp [validateBlock, validateBlockAux, hh, hx, hv, hl, hc]

theorem Err_root_wrap (e : Err) (m : String) : (Err.wrap e m).root = e.root := rfl

theorem Err_root_withDetail (e : Err) (d : String) : (Err.withDetail e d).root = e.root := rfl

theorem Err_root_external (c : Nat) : (Err.external c).root = .external c := rfl

theorem Err_root_mismatchedMerkleRoot : (Err.mismatchedMerkleRoot).root = .mismatchedMerkleRoot := rfl

theorem validateBlockHeader_some_root (env : Env) (b : Block) (parent : BlockNode) (e : Err)
    (h : validateBlockHeader env b parent = some e) : e.root ≠ .wrongCoinbaseTransaction := by
  unfold validateBlockHeader checkBlockTime at h
  repeat' split at h
  all_goals first
    | exact Option.noConfusion h
    | (injection h with h'; subst h'; decide)

theorem merkleChecks_some_root (env : Env) (b : Block) (st : List Bool) (e : Err)
    (h : merkleChecks env b st = some e) : e.root ≠ .wrongCoinbaseTransaction := by
  unfold merkleChecks at h
  repeat' split at h
  all_goals first
    | exact Option.noConfusion h
    | (injection h with h'; subst h';
        simp [Err_root_wrap, Err_root_withDetail, Err_root_external,
          Err_root_mismatchedMerkleRoot])

theorem merkleChecks_none_iff (env : Env) (b : Block) (st : List Bool) :
    merkleChecks env b st = none ↔
      (env.txMerkleRoot b.transactions = .ok b.transactionsRoot ∧
        env.txStatusMerkleRoot st = .ok b.transactionStatusHash) := by
  unfold merkleChecks
  cases hr : env.txMerkleRoot b.transactions with
  | error code => simp
  | ok r =>
    simp only []
    by_cases hrr : r = b.transactionsRoot
    · subst hrr
      rw [if_neg (by simp)]
      cases hs : env.txStatusMerkleRoot st with
      | error code => simp
      | ok sr =>
        simp only []
        by_cases hss : sr = b.transactionStatusHash
        · subst hss
          rw [if_neg (by simp)]
          simp
        · rw [if_pos hss]
          simp [hss]
    · rw [if_pos hrr]
      simp [hrr]

theorem merkleChecks_tx_mismatch (env : Env) (b : Block) (st : List Bool) (r : Nat)
    (hr : env.txMerkleRoot b.transactions = .ok r) (hne : r ≠ b.transactionsRoot) :
    merkleChecks env b st =
      some (.withDetail .mismatchedMerkleRoot "transaction id merkle root") := by
  unfold merkleChecks
  rw [hr]
  simp only []
  rw [if_pos hne]

theorem merkleChecks_status_mismatch (env : Env) (b : Block) (st : List Bool) (r s : Nat)
    (hr : env.txMerkleRoot b.transactions = .ok r) (hre : r = b.transactionsRoot)
    (hs : env.txStatusMerkleRoot st = .ok s) (hne : s ≠ b.transactionStatusHash) :
    merkleChecks env b st =
      some (.withDetail .mismatchedMerkleRoot "transaction status merkle root") := by
  subst hre
  unfold merkleChecks
  rw [hr]
  simp only []
  rw [if_neg (by simp), hs]
  simp only []
  rw [if_pos hne]

theorem checkCoinbaseAmount_root (b : Block) (amount : Nat) :
    (∃ e, checkCoinbaseAmount b amount = some e ∧ e.root = .wrongCoinbaseTransaction) ↔
      (b.transactions = [] ∨ ∃ tx rest a, b.transactions = tx :: rest ∧
        tx.coinbaseOutputAmount = .ok a ∧ a ≠ amount) := by
  cases hbt : b.transactions with
  | nil => simp [checkCoinbaseAmount, hbt, Err.root]
  | cons tx rest =>
    cases hout : tx.coinbaseOutputAmount with
    | error code => simp [checkCoinbaseAmount, hbt, hout, Err.root]
    | ok a =>
      by_cases ha : a = amount
      · subst ha
        simp [checkCoinbaseAmount, hbt, hout, Err.root]
      · simp [checkCoinbaseAmount, hbt, hout, ha, Err.root]

/-- C1 (corrected, amended part): with the header checks passed, a
control-program identifier mapping to a malformed hex value makes
ValidateBlock fail with the decoder's error, which is distinct from the
signature-verification error; an identifier absent from the registry,
however, yields the empty string, which decodes successfully to the all-zero
key, so authentication proceeds to the signature-verification step and fails
there with the signature-verification error whenever the verifier
rejects. -/
theorem c1_absent_key_reaches_signature_step (env : Env) (b : Block) (parent : BlockNode)
    (block : TypesBlock) (auth : List (String × String)) (pos : Nat)
    (hh : validateBlockHeader env b parent = none) :
    (∀ e, hexDecodeString (mapIndex auth b.proof.controlProgram) = .error e →
      (validateBlock env b parent block auth pos).1 = some e ∧ e ≠ .signatureFailed) ∧
    ((auth.find? fun p => p.1 == b.proof.controlProgram) = none →
      env.verify (makeXPub []) block.marshalText b.proof.sign = false →
      (validateBlock env b parent block auth pos).1 = some .signatureFailed) := by
  constructor
  · intro e hx
    refine ⟨by rw [validateBlock_hex_err env b parent block auth pos e hh hx], ?_⟩
    rcases hexDecodeList_error _ e hx with h | ⟨c, h⟩ <;> subst h <;> simp
  · intro habs hv
    have hx : hexDecodeString (mapIndex auth b.proof.controlProgram) = .ok [] := by
      simp [mapIndex, habs]
      rfl
    rw [validateBlock_sig_fail env b parent block auth pos [] hh hx hv]

/-- Witness for C1's amended statement: a malformed registry value ("zz")
fails with the hex decoder's invalid-byte error, and an absent key under a
rejecting verifier fails with the signature-verification error. -/
theorem c1_absent_key_reaches_signature_step_witness :
    ((validateBlock wEnv wBlock wParent wTypesBlock wAuthBad 0).1 =
        some (.hexInvalidByte 'z') ∧ Err.hexInvalidByte 'z' ≠ Err.signatureFailed) ∧
    (validateBlock wEnvNoSig wBlock wParent wTypesBlock [] 0).1 = some .signatureFailed :=
  ⟨(c1_absent_key_reaches_signature_step wEnv wBlock wParent wTypesBlock wAuthBad 0 rfl).1
      (Err.hexInvalidByte 'z') rfl,
    (c1_absent_key_reaches_signature_step wEnvNoSig wBlock wParent wTypesBlock [] 0 rfl).2
      rfl rfl⟩

/-- C1 (counterexample): with "alice" absent from the (empty) registry and a
rejecting verifier, ValidateBlock returns the signature-verification error —
not a decoding error — so an absent key does reach the signature-verification
step, contradicting the claim. -/
theorem c1_counterexample :
    (validateBlock wEnvNoSig wBlock wParent wTypesBlock [] 0).1 = some .signatureFailed := rfl

/-- C2: when the pipeline reaches the transaction loop and the running
uint64 gas total first exceeds the ceiling at the transaction t following the
valid prefix pre, ValidateBlock fails with errOverBlockLimit, the attached
status bitmap stops exactly at t, and the result is unchanged however the
transactions after t are replaced — no later transaction is consulted and no
later stage runs. -/
theorem c2_over_block_gas_limit (env : Env) (b : Block) (parent : BlockNode)
    (block : TypesBlock) (auth : List (String × String)) (pos : Nat)
    (pre : List Tx) (t : Tx) (post : List Tx) (tmp : List Nat)
    (hb : b.transactions = pre ++ t :: post)
    (hh : validateBlockHeader env b parent = none)
    (hx : hexDecodeString (mapIndex auth b.proof.controlProgram) = .ok tmp)
    (hv : env.verify (makeXPub tmp) block.marshalText b.proof.sign = true)
    (hpre : ∀ tx ∈ pre, txValid env tx = true)
    (hnc : noCross env 0 pre)
    (ht : txValid env t = true)
    (hcross : gasStep env (gasAccum env 0 pre) t > maxBlockGas) :
    (validateBlock env b parent block auth pos).1 = some .overBlockLimit ∧
    (validateBlock env b parent block auth pos).2.transactionStatus =
      (pre ++ [t]).map (txFlag env) ∧
    ∀ post', (validateBlock env { b with transactions := pre ++ t :: post' }
        parent block auth pos).1 = some .overBlockLimit := by
  have hl := txLoopGo_overLimit env b.transactions.length pre t post 0 (env.subsidy b.height)
    [] hpre hnc ht hcross
  simp only [List.length_nil, List.nil_append] at hl
  rw [← hb] at hl
  have hmain := validateBlock_loop_returned env b parent block auth pos tmp
    (some .overBlockLimit) ((pre ++ [t]).map (txFlag env)) hh hx hv hl
  refine ⟨by rw [hmain], by rw [hmain], ?_⟩
  intro post'
  have hl' := txLoopGo_overLimit env (pre ++ t :: post').length pre t post' 0
    (env.subsidy b.height) [] hpre hnc ht hcross
  simp only [List.length_nil, List.nil_append] at hl'
  have hmain' := validateBlock_loop_returned env { b with transactions := pre ++ t :: post' }
    parent block auth pos tmp (some .overBlockLimit) ((pre ++ [t]).map (txFlag env)) hh hx hv hl'
  rw [hmain']

/-- Witness for C2: a single transaction reporting gas one above the ceiling
makes ValidateBlock fail with errOverBlockLimit on the concrete fixture. -/
theorem c2_over_block_gas_limit_witness :
    (validateBlock wEnvGas wBlock wParent wTypesBlock wAuth 0).1 = some .overBlockLimit :=
  (c2_over_block_gas_limit wEnvGas wBlock wParent wTypesBlock wAuth 0 [] wTx [] []
    rfl rfl rfl rfl (by intro tx h; cases h) trivial rfl (by decide)).1

/-- C3: the wrong-coinbase error kind arises in exactly two sub-cases: at the
ValidateBlock level every result rooted in ErrWrongCoinbaseTransaction means
the block was empty or the coinbase result-output amount differed from the
accumulated subsidy-plus-fees, and at the checkCoinbaseAmount level the error
kind appears exactly for the empty block or an amount mismatch. -/
theorem c3_wrong_coinbase_exactly_two_cases (env : Env) (b : Block) (parent : BlockNode)
    (block : TypesBlock) (auth : List (String × String)) (pos : Nat) (amount : Nat) :
    (∀ e, (validateBlock env b parent block auth pos).1 = some e →
      e.root = .wrongCoinbaseTransaction →
      (b.transactions = [] ∨ ∃ tx rest a, b.transactions = tx :: rest ∧
        tx.coinbaseOutputAmount = .ok a ∧
        a ≠ coinbaseAccum env (env.subsidy b.height) b.transactions)) ∧
    ((∃ e, checkCoinbaseAmount b amount = some e ∧ e.root = .wrongCoinbaseTransaction) ↔
      (b.transactions = [] ∨ ∃ tx rest a, b.transactions = tx :: rest ∧
        tx.coinbaseOutputAmount = .ok a ∧ a ≠ amount)) := by
  refine ⟨?_, checkCoinbaseAmount_root b amount⟩
  intro e he hroot
  cases hh : validateBlockHeader env b parent with
  | some e0 =>
    rw [show (validateBlock env b parent block auth pos) = (some e0, b) by
      simp [validateBlock, validateBlockAux, hh]] at he
    simp at he
    exact absurd (he ▸ hroot) (validateBlockHeader_some_root env b parent e0 hh)
  | none =>
    cases hx : hexDecodeString (mapIndex auth b.proof.controlProgram) with
    | error e0 =>
      rw [validateBlock_hex_err env b parent block auth pos e0 hh hx] at he
      simp at he
      rcases hexDecodeList_error _ e0 hx with h0 | ⟨c, h0⟩ <;>
        subst h0 <;> rw [← he] at hroot <;> simp [Err.root] at hroot
    | ok tmp =>
      cases hv : env.verify (makeXPub tmp) block.marshalText b.proof.sign with
      | false =>
        rw [validateBlock_sig_fail env b parent block auth pos tmp hh hx hv] at he
        simp at he
        rw [← he] at hroot
        simp [Err.root] at hroot
      | true =>
        cases hl : txLoopGo env b.transactions.length 0 0 (env.subsidy b.height)
            newTransactionStatus b.transactions with
        | returned e1 st =>
          rw [validateBlock_loop_returned env b parent block auth pos tmp e1 st
            hh hx hv hl] at he
          simp at he
          exact absurd hroot
            (txLoopGo_returned_some_root env b.transactions.length b.transactions
              _ _ _ _ _ _ (he ▸ hl))
        | completed c st =>
          cases hc : checkCoinbaseAmount b c with
          | some e1 =>
            rw [validateBlock_coinbase_err env b parent block auth pos tmp c st e1
              hh hx hv hl hc] at he
            simp at he
            have hcase := (checkCoinbaseAmount_root b c).mp ⟨e, he ▸ hc, hroot⟩
            have hcc : c = coinbaseAccum env (env.subsidy b.height) b.transactions :=
              txLoopGo_completed_coinbase env b.transactions.length b.transactions
                _ _ _ _ _ _ hl
            rw [hcc] at hcase
            exact hcase
          | none =>
            rw [validateBlock_merkle_stage env b parent block auth pos tmp c st
              hh hx hv hl hc] at he
            simp at he
            exact absurd hroot (merkleChecks_some_root env b st e he)

/-- Witness for C3: on the concrete empty block, checkCoinbaseAmount reports
an error rooted in ErrWrongCoinbaseTransaction. -/
theorem c3_wrong_coinbase_exactly_two_cases_witness :
    ∃ e, checkCoinbaseAmount wBlockEmpty 5 = some e ∧
      e.root = .wrongCoinbaseTransaction :=
  (c3_wrong_coinbase_exactly_two_cases wEnv wBlockEmpty wParent wTypesBlock wAuth 0 5).2.mpr
    (Or.inl rfl)

/-- C4 (code bug): when the external validator reports the gas outcome of the
first transaction invalid with an absent failure detail, ValidateBlock does
not reject the block: errors.Wrapf of an absent error is absent, so the
source returns nil — accepting the block with an empty status bitmap and
skipping the coinbase and merkle stages (the fixture's merkle stage would
have failed: its roots match neither commitment). -/
theorem c4_invalid_without_detail_accepted :
    (validateBlock wEnvBug wBlock wParent wTypesBlock wAuth 0).1 = none ∧
    (validateBlock wEnvBug wBlock wParent wTypesBlock wAuth 0).2.transactionStatus = [] ∧
    merkleChecks wEnvBug wBlock [] ≠ none :=
  ⟨rfl, rfl, by decide⟩

/-- C7: once the loop and the coinbase stage pass, ValidateBlock succeeds
exactly when the recomputed transaction-id merkle root equals the header's
transactions-root and the recomputed status merkle root equals the header's
status commitment; either mismatch is fatal with errMismatchedMerkleRoot
detailed with which of the two roots failed. -/
theorem c7_merkle_commitments (env : Env) (b : Block) (parent : BlockNode)
    (block : TypesBlock) (auth : List (String × String)) (pos : Nat) (tmp : List Nat)
    (c : Nat) (st : List Bool)
    (hh : validateBlockHeader env b parent = none)
    (hx : hexDecodeString (mapIndex auth b.proof.controlProgram) = .ok tmp)
    (hv : env.verify (makeXPub tmp) block.marshalText b.proof.sign = true)
    (hl : txLoopGo env b.transactions.length 0 0 (env.subsidy b.height)
        newTransactionStatus b.transactions = .completed c st)
    (hc : checkCoinbaseAmount b c = none) :
    ((validateBlock env b parent block auth pos).1 = none ↔
      (env.txMerkleRoot b.transactions = .ok b.transactionsRoot ∧
        env.txStatusMerkleRoot st = .ok b.transactionStatusHash)) ∧
    (∀ r, env.txMerkleRoot b.transactions = .ok r → r ≠ b.transactionsRoot →
      (validateBlock env b parent block auth pos).1 =
        some (.withDetail .mismatchedMerkleRoot "transaction id merkle root")) ∧
    (∀ r s, env.txMerkleRoot b.transactions = .ok r → r = b.transactionsRoot →
      env.txStatusMerkleRoot st = .ok s → s ≠ b.transactionStatusHash →
      (validateBlock env b parent block auth pos).1 =
        some (.withDetail .mismatchedMerkleRoot "transaction status merkle root")) := by
  have hres := validateBlock_merkle_stage env b parent block auth pos tmp c st hh hx hv hl hc
  refine ⟨?_, ?_, ?_⟩
  · rw [hres]
    exact merkleChecks_none_iff env b st
  · intro r hr hne
    rw [hres]
    exact merkleChecks_tx_mismatch env b st r hr hne
  · intro r s hr hre hs hne
    rw [hres]
    exact merkleChecks_status_mismatch env b st r s hr hre hs hne

/-- Witness for C7: the concrete one-transaction fixture with matching
commitments (11 and 22) is accepted end to end. -/
theorem c7_merkle_commitments_witness :
    (validateBlock wEnv wBlock wParent wTypesBlock wAuth 0).1 = none :=
  (c7_merkle_commitments wEnv wBlock wParent wTypesBlock wAuth 0 [] 50 [false]
    rfl rfl rfl rfl rfl).1.mpr ⟨rfl, rfl⟩

/-- C10: ValidateBlock replaces the block's TransactionStatus with a fresh
empty bitmap after proposer authentication and before validating any
transaction — once that point is reached the result is identical for every
incoming TransactionStatus — and a rejection at the transaction t following
the valid prefix pre returns with the block carrying the partial status
covering exactly the prefix's indices; the mutation is not rolled back. -/
theorem c10_partial_status_on_loop_failure (env : Env) (b : Block) (parent : BlockNode)
    (block : TypesBlock) (auth : List (String × String)) (pos : Nat)
    (pre : List Tx) (t : Tx) (post : List Tx) (tmp : List Nat)
    (hb : b.transactions = pre ++ t :: post)
    (hh : validateBlockHeader env b parent = none)
    (hx : hexDecodeString (mapIndex auth b.proof.controlProgram) = .ok tmp)
    (hv : env.verify (makeXPub tmp) block.marshalText b.proof.sign = true)
    (hpre : ∀ tx ∈ pre, txValid env tx = true)
    (hnc : noCross env 0 pre)
    (ht : txValid env t = false) :
    (validateBlock env b parent block auth pos).1 =
      wrapf ((env.validateTx t).2.map Err.external)
        ("validate of transaction " ++ toString pre.length ++ " of " ++
          toString b.transactions.length) ∧
    (validateBlock env b parent block auth pos).2.transactionStatus =
      pre.map (txFlag env) ∧
    ∀ s, validateBlock env { b with transactionStatus := s } parent block auth pos =
      validateBlock env b parent block auth pos := by
  have hl := txLoopGo_invalid env b.transactions.length pre t post 0 (env.subsidy b.height)
    [] hpre hnc ht
  simp only [List.length_nil, List.nil_append, Nat.zero_add] at hl
  rw [← hb] at hl
  have hmain := validateBlock_loop_returned env b parent block auth pos tmp
    (wrapf ((env.validateTx t).2.map Err.external)
      ("validate of transaction " ++ toString pre.length ++ " of " ++
        toString b.transactions.length))
    (pre.map (txFlag env)) hh hx hv hl
  refine ⟨by rw [hmain], by rw [hmain], ?_⟩
  intro s
  have haux : validateBlockAux env b parent block auth =
      (wrapf ((env.validateTx t).2.map Err.external)
        ("validate of transaction " ++ toString pre.length ++ " of " ++
          toString b.transactions.length), some (pre.map (txFlag env))) := by
    simp [validateBlockAux, newTransactionStatus, hh, hx, hv, hl]
  unfold validateBlock
  rw [validateBlockAux_update_status, haux]

/-- Witness for C10: with the second of two transactions rejected (failure
detail code 9), the returned block's status covers exactly the first
transaction, and a stale incoming status does not change the result. -/
theorem c10_partial_status_on_loop_failure_witness :
    (validateBlock wEnvMix wBlockTwo wParent wTypesBlock wAuth 0).2.transactionStatus =
      [false] ∧
    validateBlock wEnvMix { wBlockTwo with transactionStatus := [] } wParent wTypesBlock
        wAuth 0 =
      validateBlock wEnvMix wBlockTwo wParent wTypesBlock wAuth 0 :=
  ⟨(c10_partial_status_on_loop_failure wEnvMix wBlockTwo wParent wTypesBlock wAuth 0
      [wTx] wTxBad [] [] rfl rfl rfl rfl
      (by intro tx h; simp at h; subst h; rfl) ⟨by decide, trivial⟩ rfl).2.1,
    (c10_partial_status_on_loop_failure wEnvMix wBlockTwo wParent wTypesBlock wAuth 0
      [wTx] wTxBad [] [] rfl rfl rfl rfl
      (by intro tx h; simp at h; subst h; rfl) ⟨by decide, trivial⟩ rfl).2.2 []⟩

end BytomValidation
